import Mathlib

/-!
Shallow embedding of `monacoEditorBindingHandler.ts`: the Monaco editor
registry (`MonacoEditorStore`) and the Knockout binding adapter
(`MonacoBindingHandlerHelper`), together with proofs of the specified
properties.

Modelling conventions:
* The JS object `_monacoEditorInstances` (string keys, unique, to editor
  handles) is an association list with unique keys; `setEntry` models
  `map[id] = v` (replace if present, else add), `eraseEntry` models
  `delete map[id]`, `lookupEd` models `map[id]` read (`none` = undefined).
* A Monaco editor handle is a record holding the observable state the code
  touches: its text (`getValue`/`setValue`), its caret position
  (`setPosition`), its construction options, and an identity tag `handle`.
  Calls to `editor.dispose()` are logged in the ghost field `disposeCalls`
  (by the handle tag) so that resource release is observable.
* A nullable string argument is `Option String` (`none` = JS `null`).
* Functions that can hit a JS runtime error (reading a property of
  `undefined`) return `Option`; functions that `throw new Error` return
  `Except String`.
-/

/-- Monaco `IPosition`: the caret position the code passes to `setPosition`. -/
structure EditorPosition where
  lineNumber : Int
  column : Int
deriving Repr, DecidableEq

/-- Monaco `IEditorMinimapOptions` as used by the source
(`{ enabled: true, showSlider: "mouseover" }`). -/
structure MinimapOptions where
  enabled : Bool
  showSlider : String
deriving Repr, DecidableEq

/-- The slice of `monaco.editor.IEditorConstructionOptions` that
`parseOptions` touches.  Each field is `Option τ` (`none` = absent /
`undefined` in the JS object literal). -/
structure OptionsRecord where
  language : Option String := none
  theme : Option String := none
  lineNumbers : Option String := none
  roundedSelection : Option Bool := none
  scrollBeyondLastLine : Option Bool := none
  readOnly : Option Bool := none
  fontSize : Option Int := none
  autoIndent : Option Bool := none
  emptySelectionClipboard : Option Bool := none
  folding : Option Bool := none
  glyphMargin : Option Bool := none
  mouseWheelZoom : Option Bool := none
  parameterHints : Option Bool := none
  renderIndentGuides : Option Bool := none
  minimap : Option MinimapOptions := none
deriving Repr, DecidableEq

/-- JS truthiness test for a possibly-absent string: `undefined` and the
empty string are falsy. -/
def falsyStr : Option String → Bool
  | none => true
  | some s => s = ""

/-- JS truthiness test for a possibly-absent boolean: `undefined` and
`false` are falsy. -/
def falsyBool : Option Bool → Bool
  | none => true
  | some b => !b

/-- JS truthiness test for a possibly-absent number: `undefined` and `0`
are falsy. -/
def falsyNum : Option Int → Bool
  | none => true
  | some n => n = 0

/-- JS truthiness test for a possibly-absent object: only `undefined` is
falsy (an object reference is always truthy). -/
def falsyObj : Option MinimapOptions → Bool
  | none => true
  | some _ => false

/-- The body of `MonacoEditorStore.parseOptions` after the
`optionsObjectLiteral || {}` coalescing: fifteen statements of the form
`if (!options.f) options.f = default;` executed in sequence on the object.
Each statement reads and writes only its own field, so the sequential
chain is this simultaneous record update. -/
def fillDefaults (o : OptionsRecord) : OptionsRecord where
  language := if falsyStr o.language then some "javascript" else o.language
  theme := if falsyStr o.theme then some "vs-dark" else o.theme
  lineNumbers := if falsyStr o.lineNumbers then some "on" else o.lineNumbers
  roundedSelection :=
    if falsyBool o.roundedSelection then some true else o.roundedSelection
  scrollBeyondLastLine :=
    if falsyBool o.scrollBeyondLastLine then some true else o.scrollBeyondLastLine
  readOnly := if falsyBool o.readOnly then some false else o.readOnly
  fontSize := if falsyNum o.fontSize then some 20 else o.fontSize
  autoIndent := if falsyBool o.autoIndent then some true else o.autoIndent
  emptySelectionClipboard :=
    if falsyBool o.emptySelectionClipboard then some true else o.emptySelectionClipboard
  folding := if falsyBool o.folding then some true else o.folding
  glyphMargin := if falsyBool o.glyphMargin then some true else o.glyphMargin
  mouseWheelZoom :=
    if falsyBool o.mouseWheelZoom then some true else o.mouseWheelZoom
  parameterHints :=
    if falsyBool o.parameterHints then some true else o.parameterHints
  renderIndentGuides :=
    if falsyBool o.renderIndentGuides then some true else o.renderIndentGuides
  minimap :=
    if falsyObj o.minimap then some ⟨true, "mouseover"⟩ else o.minimap

/-- Source `parseOptions` as a value-level function: `optionsObjectLiteral || {}`
(a falsy argument, i.e. `null`/`undefined`, is replaced by a fresh empty
object) followed by the default-filling statements. -/
def parseOptions (optionsObjectLiteral : Option OptionsRecord) : OptionsRecord :=
  fillDefaults (optionsObjectLiteral.getD {})

/-- A Monaco editor handle (`monaco.editor.ICodeEditor`) with the state the
binding-handler code observes and mutates.  `handle` is an identity tag used
only by the ghost dispose log. -/
structure Editor where
  handle : Nat
  value : String
  position : EditorPosition
  options : OptionsRecord
deriving Repr, DecidableEq

/-- Read `map[id]` on the instance object: first (unique) matching key. -/
def lookupEd : List (String × Editor) → String → Option Editor
  | [], _ => none
  | (k, e) :: rest, i => if k = i then some e else lookupEd rest i

/-- Model of `map[id] = ed`: replace the entry if the key is present, else add it. -/
def setEntry : List (String × Editor) → String → Editor → List (String × Editor)
  | [], i, ed => [(i, ed)]
  | (k, e) :: rest, i, ed =>
    if k = i then (i, ed) :: rest else (k, e) :: setEntry rest i ed

/-- Model of `delete map[id]`: remove the (unique) entry with that key. -/
def eraseEntry : List (String × Editor) → String → List (String × Editor)
  | [], _ => []
  | (k, e) :: rest, i => if k = i then rest else (k, e) :: eraseEntry rest i

/-- The state of a `MonacoEditorStore` object: the instance map
`_monacoEditorInstances`, the id seed `_nextStoreEntryId`, and the ghost
log of `editor.dispose()` calls (tags of disposed handles). -/
structure MonacoEditorStore where
  _monacoEditorInstances : List (String × Editor)
  _nextStoreEntryId : Nat
  disposeCalls : List Nat
deriving Repr, DecidableEq

/-- The store produced by the constructor: empty map, seed `0`. -/
def MonacoEditorStore.initial : MonacoEditorStore where
  _monacoEditorInstances := []
  _nextStoreEntryId := 0
  disposeCalls := []

/-- Source constant `editorDomElementIdPrefix`. -/
def editorDomElementIdBase : String := "knockout-monaco-"

/-- The id string `getNextId` builds for seed value `n`
(the template literal over `editorDomElementIdPrefix` and the seed). -/
def genId (n : Nat) : String := editorDomElementIdBase ++ toString n

/-- Source `MonacoEditorStore.getNextId`: pre-increment the seed, return the
generated id together with the updated store. -/
def MonacoEditorStore.getNextId (s : MonacoEditorStore) :
    String × MonacoEditorStore :=
  let n := s._nextStoreEntryId + 1
  (genId n, { s with _nextStoreEntryId := n })

/-- Source `MonacoEditorStore.get`: throws on `null`/`''`, otherwise the raw map
read (`none` = no entry, JS `undefined`). -/
def MonacoEditorStore.get (s : MonacoEditorStore) (id : Option String) :
    Except String (Option Editor) :=
  match id with
  | none => .error "the id argument may not be null, empty, undefined, or blank"
  | some i =>
    if i = "" then
      .error "the id argument may not be null, empty, undefined, or blank"
    else
      .ok (lookupEd s._monacoEditorInstances i)

/-- Source `MonacoEditorStore.hasEditors`: the for-in scan with the
`hasInstances || !hasOwnProperty` continue-guard (`hasOwnProperty` is
always true for the object's own keys, which is all the model stores). -/
def MonacoEditorStore.hasEditors (s : MonacoEditorStore) : Bool :=
  s._monacoEditorInstances.foldl
    (fun hasInstances _ => if hasInstances then hasInstances else true) false

/-- Source `MonacoEditorStore.updateEditor`: guarded by
`id !== null && id !== '' && hasOwnProperty(id)`; inside, `setValue` and
`setPosition({column: 0, lineNumber: 0})` run only when the editor's
current value differs from `koModelValue`. -/
def MonacoEditorStore.updateEditor (s : MonacoEditorStore) (id : Option String)
    (koModelValue : String) : MonacoEditorStore :=
  match id with
  | none => s
  | some i =>
    if i = "" then s
    else
      match lookupEd s._monacoEditorInstances i with
      | none => s
      | some editor =>
        if editor.value ≠ koModelValue then
          { s with
            _monacoEditorInstances :=
              setEntry s._monacoEditorInstances i
                { editor with
                  value := koModelValue
                  position := { lineNumber := 0, column := 0 } } }
        else s

/-- Source `MonacoEditorStore.resizeAll`: `editor.layout()` on every stored handle
recomputes geometry and leaves the registry state unchanged; the loop
must tolerate an empty map. -/
def MonacoEditorStore.resizeAll (s : MonacoEditorStore) : MonacoEditorStore :=
  s._monacoEditorInstances.foldl (fun acc _ => acc) s

/-- The dispose callback `create` registers on the DOM element:
`instances[element.id].dispose(); delete instances[element.id]`.
The map read on a missing key yields `undefined`, whose `.dispose()`
is a runtime `TypeError`, modelled as `none`. -/
def MonacoEditorStore.domNodeDisposeCallback (s : MonacoEditorStore)
    (id : String) : Option MonacoEditorStore :=
  match lookupEd s._monacoEditorInstances id with
  | none => none
  | some editor =>
    some { s with
           _monacoEditorInstances := eraseEntry s._monacoEditorInstances id
           disposeCalls := s.disposeCalls ++ [editor.handle] }

/-- Source `MonacoEditorStore.disposeEditor` (the private member, same body as the
registered callback). -/
def MonacoEditorStore.disposeEditor (s : MonacoEditorStore) (id : String) :
    Option MonacoEditorStore :=
  s.domNodeDisposeCallback id

/-- A DOM element as the code sees it: only its `id` (`""` = no id). -/
structure DomElement where
  id : String
deriving Repr, DecidableEq

/-- The synchronous head of `MonacoEditorStore.create`:
`if (!element.id) element.id = this.getNextId();` -/
def MonacoEditorStore.createAssignId (s : MonacoEditorStore) (e : DomElement) :
    MonacoEditorStore × DomElement :=
  if e.id = "" then
    let p := s.getNextId
    (p.2, { e with id := p.1 })
  else (s, e)

/-- The body of the `require` callback inside `MonacoEditorStore.create`:
parse the options, create the text model from the starting value, create
the editor widget (identity tag `handle`, caret at Monaco's initial
`(1,1)`), and persist it under the element's id with `map[id] = editor`
(overwriting any previous entry, without disposing it). -/
def MonacoEditorStore.createRequireCallback (s : MonacoEditorStore)
    (elemId : String) (options : Option OptionsRecord)
    (startingEditorValue : String) (handle : Nat) : MonacoEditorStore :=
  let parsedOptions := parseOptions options
  let editor : Editor :=
    { handle := handle
      value := startingEditorValue
      position := { lineNumber := 1, column := 1 }
      options := parsedOptions }
  { s with
    _monacoEditorInstances := setEntry s._monacoEditorInstances elemId editor }

/-- The ids produced by `k` consecutive `getNextId` calls. -/
def MonacoEditorStore.generatedIds : MonacoEditorStore → Nat → List String
  | _, 0 => []
  | s, k + 1 =>
    let p := s.getNextId
    p.1 :: p.2.generatedIds k

/-- The value of a sibling binding in the `data-bind` declaration: either
an object literal or a falsy value (`null`/`undefined` written
explicitly), as seen through `allBindingsAccessor.get`. -/
inductive BindingVal where
  | obj (o : OptionsRecord)
  | nullish
deriving Repr, DecidableEq

/-- The `allBindingsAccessor` modelled as its name-to-value map. -/
def lookupBinding : List (String × BindingVal) → String → Option BindingVal
  | [], _ => none
  | (k, v) :: rest, name => if k = name then some v else lookupBinding rest name

/-- Source `MonacoBindingHandlerHelper.init`: if the `meOptions` binding is absent
it throws (no registry call happens); otherwise it reads the option
literal (`get('meOptions') || {}`) and delegates to `Registry.create`
with the element, the option literal and the value accessor — the `ok`
payload is exactly that argument triple. -/
def MonacoBindingHandlerHelper.init {α : Type} (element : DomElement)
    (valueAccessor : α) (allBindings : List (String × BindingVal)) :
    Except String (DomElement × OptionsRecord × α) :=
  match lookupBinding allBindings "meOptions" with
  | some v =>
    .ok (element,
         (match v with
          | .obj o => o
          | .nullish => {}),
         valueAccessor)
  | none =>
    .error "a \"meOptions\" property cannot be found on the monaco-editor DOM nockout binding"

/-- A heap of option records, for stating the in-place mutation behaviour
of `parseOptions` (JS objects are references into a heap). -/
structure OptionsHeap where
  recs : List OptionsRecord
deriving Repr, DecidableEq

/-- Dereference (out-of-range reads are irrelevant: theorems assume valid refs). -/
def OptionsHeap.read (h : OptionsHeap) (r : Nat) : OptionsRecord :=
  h.recs.getD r {}

/-- Update the record a reference points to. -/
def OptionsHeap.write (h : OptionsHeap) (r : Nat) (o : OptionsRecord) :
    OptionsHeap :=
  { recs := h.recs.set r o }

/-- Allocate a fresh record, returning the new heap and its reference. -/
def OptionsHeap.alloc (h : OptionsHeap) (o : OptionsRecord) :
    OptionsHeap × Nat :=
  ({ recs := h.recs ++ [o] }, h.recs.length)

/-- Source `parseOptions` at the heap level: `let options = literal || {}` aliases
the caller's object when one is supplied (allocating a fresh `{}` only for
a falsy argument); the default-filling `if` statements then mutate that
very object in place, and the same reference is returned. -/
def parseOptionsRef (h : OptionsHeap) (r : Option Nat) : OptionsHeap × Nat :=
  match r with
  | some ref => (h.write ref (fillDefaults (h.read ref)), ref)
  | none =>
    let p := h.alloc {}
    (p.1.write p.2 (fillDefaults (p.1.read p.2)), p.2)

/-! ### Helper lemmas -/

theorem digitChar_inj_lt10 :
    ∀ a < 10, ∀ b < 10, Nat.digitChar a = Nat.digitChar b → a = b := by decide

theorem toDigitsCore_eq_digits (fuel : Nat) :
    ∀ (n : Nat) (ds : List Char), n ≠ 0 → n < 10 ^ fuel →
    Nat.toDigitsCore 10 fuel n ds =
      ((Nat.digits 10 n).map Nat.digitChar).reverse ++ ds := by
  induction fuel with
  | zero =>
    intro n ds hn hfuel
    simp at hfuel
    omega
  | succ fuel ih =>
    intro n ds hn hfuel
    have hdig : Nat.digits 10 n = n % 10 :: Nat.digits 10 (n / 10) :=
      Nat.digits_def' (by norm_num) (Nat.pos_of_ne_zero hn)
    by_cases h10 : n / 10 = 0
    · simp [Nat.toDigitsCore, h10, hdig]
    · have hlt : n / 10 < 10 ^ fuel := by
        rw [pow_succ] at hfuel
        exact (Nat.div_lt_iff_lt_mul (by norm_num)).mpr hfuel
      simp only [Nat.toDigitsCore, h10, if_neg h10]
      rw [ih (n / 10) _ h10 hlt, hdig]
      simp

theorem toDigits_eq_digits (n : Nat) (hn : n ≠ 0) :
    Nat.toDigits 10 n = ((Nat.digits 10 n).map Nat.digitChar).reverse := by
  have hpow : n < 10 ^ (n + 1) :=
    lt_of_lt_of_le (Nat.lt_pow_self (by norm_num) n)
      (Nat.pow_le_pow_right (by norm_num) (Nat.le_succ n))
  rw [Nat.toDigits, toDigitsCore_eq_digits (n + 1) n [] hn hpow, List.append_nil]

theorem map_digitChar_inj :
    ∀ l1 l2 : List Nat, (∀ x ∈ l1, x < 10) → (∀ x ∈ l2, x < 10) →
    l1.map Nat.digitChar = l2.map Nat.digitChar → l1 = l2 := by
  intro l1
  induction l1 with
  | nil => intro l2 _ _ h; cases l2 <;> simp_all
  | cons x xs ih =>
    intro l2 h1 h2 h
    cases l2 with
    | nil => simp at h
    | cons y ys =>
      simp only [List.map_cons, List.cons.injEq] at h
      have hx : x = y :=
        digitChar_inj_lt10 x (h1 x (by simp)) y (h2 y (by simp)) h.1
      have := ih ys (fun z hz => h1 z (by simp [hz]))
        (fun z hz => h2 z (by simp [hz])) h.2
      simp [hx, this]

theorem Nat_repr_inj_pos {m n : Nat} (hm : m ≠ 0) (hn : n ≠ 0)
    (h : Nat.repr m = Nat.repr n) : m = n := by
  have hl : Nat.toDigits 10 m = Nat.toDigits 10 n := by
    have := congrArg String.data h
    simpa [Nat.repr, List.asString] using this
  rw [toDigits_eq_digits m hm, toDigits_eq_digits n hn] at hl
  have hrev := List.reverse_injective hl
  have hdg : Nat.digits 10 m = Nat.digits 10 n :=
    map_digitChar_inj _ _
      (fun x hx => Nat.digits_lt_base (by norm_num) hx)
      (fun x hx => Nat.digits_lt_base (by norm_num) hx) hrev
  calc m = Nat.ofDigits 10 (Nat.digits 10 m) := (Nat.ofDigits_digits 10 m).symm
    _ = Nat.ofDigits 10 (Nat.digits 10 n) := by rw [hdg]
    _ = n := Nat.ofDigits_digits 10 n

theorem genId_inj {m n : Nat} (hm : 0 < m) (hn : 0 < n)
    (h : genId m = genId n) : m = n := by
  have hdata := congrArg String.data h
  simp only [genId, String.data_append] at hdata
  have hrepr : (toString m : String).data = (toString n : String).data :=
    List.append_cancel_left hdata
  exact Nat_repr_inj_pos (Nat.pos_iff_ne_zero.mp hm) (Nat.pos_iff_ne_zero.mp hn)
    (String.ext hrepr)

theorem lookupEd_setEntry_self (l : List (String × Editor)) (i : String)
    (ed : Editor) : lookupEd (setEntry l i ed) i = some ed := by
  induction l with
  | nil => simp [setEntry, lookupEd]
  | cons p rest ih =>
    by_cases hk : p.1 = i
    · simp [setEntry, hk, lookupEd]
    · simp [setEntry, hk, lookupEd, ih]

theorem lookupEd_setEntry_ne (l : List (String × Editor)) (i j : String)
    (ed : Editor) (h : j ≠ i) :
    lookupEd (setEntry l i ed) j = lookupEd l j := by
  induction l with
  | nil => simp [setEntry, lookupEd, Ne.symm h]
  | cons p rest ih =>
    by_cases hk : p.1 = i
    · simp [setEntry, hk, lookupEd, Ne.symm h]
    · simp only [setEntry, if_neg hk, lookupEd]
      by_cases hj : p.1 = j
      · simp [hj]
      · simp [hj, ih]

theorem lookupEd_eq_none_of_not_mem (l : List (String × Editor)) (i : String)
    (h : i ∉ l.map Prod.fst) : lookupEd l i = none := by
  induction l with
  | nil => simp [lookupEd]
  | cons p rest ih =>
    simp only [List.map_cons, List.mem_cons, not_or] at h
    simp only [lookupEd, if_neg (Ne.symm h.1)]
    exact ih h.2

theorem lookupEd_eraseEntry_self (l : List (String × Editor)) (i : String)
    (h : (l.map Prod.fst).Nodup) :
    lookupEd (eraseEntry l i) i = none := by
  induction l with
  | nil => simp [eraseEntry, lookupEd]
  | cons p rest ih =>
    simp only [List.map_cons, List.nodup_cons] at h
    by_cases hk : p.1 = i
    · subst hk
      simp only [eraseEntry, if_pos rfl]
      exact lookupEd_eq_none_of_not_mem rest p.1 h.1
    · simp only [eraseEntry, if_neg hk, lookupEd, if_neg hk]
      exact ih h.2

theorem lookupEd_eraseEntry_ne (l : List (String × Editor)) (i j : String)
    (h : j ≠ i) : lookupEd (eraseEntry l i) j = lookupEd l j := by
  induction l with
  | nil => simp [eraseEntry]
  | cons p rest ih =>
    by_cases hk : p.1 = i
    · simp [eraseEntry, hk, lookupEd, Ne.symm h]
    · simp only [eraseEntry, if_neg hk, lookupEd]
      by_cases hj : p.1 = j
      · simp [hj]
      · simp [hj, ih]

theorem setEntry_ne_nil (l : List (String × Editor)) (i : String)
    (ed : Editor) : setEntry l i ed ≠ [] := by
  cases l with
  | nil => simp [setEntry]
  | cons p rest =>
    by_cases hk : p.1 = i <;> simp [setEntry, hk]

theorem setEntry_length_of_mem (l : List (String × Editor)) (i : String)
    (edOld ed : Editor) (h : lookupEd l i = some edOld) :
    (setEntry l i ed).length = l.length := by
  induction l with
  | nil => simp [lookupEd] at h
  | cons p rest ih =>
    by_cases hk : p.1 = i
    · simp [setEntry, hk]
    · simp only [lookupEd, if_neg hk] at h
      simp [setEntry, hk, ih h]

theorem foldl_hasInstances_true (l : List (String × Editor)) :
    l.foldl (fun hasInstances _ =>
      if hasInstances then hasInstances else true) true = true := by
  induction l with
  | nil => rfl
  | cons p rest ih => simpa [List.foldl] using ih

theorem hasEditors_eq (s : MonacoEditorStore) :
    s.hasEditors = !s._monacoEditorInstances.isEmpty := by
  unfold MonacoEditorStore.hasEditors
  cases h : s._monacoEditorInstances with
  | nil => rfl
  | cons p rest =>
    rw [List.foldl_cons]
    exact foldl_hasInstances_true rest

theorem generatedIds_succ (s : MonacoEditorStore) (k : Nat) :
    s.generatedIds (k + 1) =
      genId (s._nextStoreEntryId + 1) ::
        MonacoEditorStore.generatedIds
          { s with _nextStoreEntryId := s._nextStoreEntryId + 1 } k := rfl

theorem mem_generatedIds {k : Nat} :
    ∀ {s : MonacoEditorStore} {id : String}, id ∈ s.generatedIds k →
    ∃ j, 1 ≤ j ∧ j ≤ k ∧ id = genId (s._nextStoreEntryId + j) := by
  induction k with
  | zero =>
    intro s id h
    simp [MonacoEditorStore.generatedIds] at h
  | succ k ih =>
    intro s id h
    rw [generatedIds_succ, List.mem_cons] at h
    rcases h with h | h
    · exact ⟨1, le_refl 1, by omega, h⟩
    · obtain ⟨j, hj1, hjk, heq⟩ := ih h
      refine ⟨j + 1, by omega, by omega, ?_⟩
      rw [heq]
      congr 1
      show s._nextStoreEntryId + 1 + j = s._nextStoreEntryId + (j + 1)
      omega

theorem generatedIds_nodup (k : Nat) :
    ∀ s : MonacoEditorStore, (s.generatedIds k).Nodup := by
  induction k with
  | zero => intro s; simp [MonacoEditorStore.generatedIds]
  | succ k ih =>
    intro s
    rw [generatedIds_succ, List.nodup_cons]
    refine ⟨?_, ih _⟩
    intro hmem
    obtain ⟨j, hj1, hjk, heq⟩ := mem_generatedIds hmem
    have heq2 : genId (s._nextStoreEntryId + 1) =
        genId (s._nextStoreEntryId + 1 + j) := heq
    have := genId_inj (by omega) (by omega) heq2
    omega

/-! ### Concrete sample values (used by witness theorems) -/

/-- A concrete editor handle. -/
def sampleEditor : Editor where
  handle := 1
  value := "x"
  position := { lineNumber := 1, column := 1 }
  options := {}

/-- A concrete store holding `sampleEditor` under id `"a"`. -/
def sampleStore : MonacoEditorStore where
  _monacoEditorInstances := [("a", sampleEditor)]
  _nextStoreEntryId := 1
  disposeCalls := []

/-! ### Claim theorems -/

/-- C1: `updateEditor` is a total no-op (same state, no error) when the id
is null, empty, or not a key of the registry; for a registered id it sets
the widget's text and resets the caret to line 0, column 0 exactly when
the current text differs from the new value — leaving every other entry,
the seed and the dispose log unchanged — and otherwise changes nothing; in
particular after `updateEditor id "hello"` on a registered id the stored
widget's text reads back exactly `"hello"`. -/
theorem updateEditor_spec :
    (∀ (s : MonacoEditorStore) (v : String), s.updateEditor none v = s) ∧
    (∀ (s : MonacoEditorStore) (v : String), s.updateEditor (some "") v = s) ∧
    (∀ (s : MonacoEditorStore) (i v : String),
      lookupEd s._monacoEditorInstances i = none →
      s.updateEditor (some i) v = s) ∧
    (∀ (s : MonacoEditorStore) (i v : String) (ed : Editor),
      lookupEd s._monacoEditorInstances i = some ed → ed.value = v →
      s.updateEditor (some i) v = s) ∧
    (∀ (s : MonacoEditorStore) (i v : String) (ed : Editor), i ≠ "" →
      lookupEd s._monacoEditorInstances i = some ed → ed.value ≠ v →
      lookupEd (s.updateEditor (some i) v)._monacoEditorInstances i =
        some { ed with value := v
                       position := { lineNumber := 0, column := 0 } } ∧
      (∀ j, j ≠ i →
        lookupEd (s.updateEditor (some i) v)._monacoEditorInstances j =
          lookupEd s._monacoEditorInstances j) ∧
      (s.updateEditor (some i) v)._nextStoreEntryId = s._nextStoreEntryId ∧
      (s.updateEditor (some i) v).disposeCalls = s.disposeCalls) ∧
    (∀ (s : MonacoEditorStore) (i : String) (ed : Editor), i ≠ "" →
      lookupEd s._monacoEditorInstances i = some ed →
      ∃ ed2,
        lookupEd (s.updateEditor (some i) "hello")._monacoEditorInstances i =
          some ed2 ∧ ed2.value = "hello") := by
  refine ⟨fun s v => rfl, ?_, ?_, ?_, ?_, ?_⟩
  · intro s v
    simp [MonacoEditorStore.updateEditor]
  · intro s i v h
    by_cases hi : i = ""
    · simp [MonacoEditorStore.updateEditor, hi]
    · simp [MonacoEditorStore.updateEditor, hi, h]
  · intro s i v ed h hv
    by_cases hi : i = ""
    · simp [MonacoEditorStore.updateEditor, hi]
    · simp [MonacoEditorStore.updateEditor, hi, h, hv]
  · intro s i v ed hi h hv
    have hupd : s.updateEditor (some i) v =
        { s with
          _monacoEditorInstances := setEntry s._monacoEditorInstances i
            { ed with value := v
                      position := { lineNumber := 0, column := 0 } } } := by
      simp [MonacoEditorStore.updateEditor, hi, h, hv]
    refine ⟨?_, ?_, ?_, ?_⟩
    · rw [hupd]
      exact lookupEd_setEntry_self _ _ _
    · intro j hj
      rw [hupd]
      exact lookupEd_setEntry_ne _ _ _ _ hj
    · rw [hupd]
    · rw [hupd]
  · intro s i ed hi h
    by_cases hv : ed.value = "hello"
    · have h1 : s.updateEditor (some i) "hello" = s := by
        simp [MonacoEditorStore.updateEditor, hi, h, hv]
      exact ⟨ed, by rw [h1]; exact h, hv⟩
    · have hupd : s.updateEditor (some i) "hello" =
          { s with
            _monacoEditorInstances := setEntry s._monacoEditorInstances i
              { ed with value := "hello"
                        position := { lineNumber := 0, column := 0 } } } := by
        simp [MonacoEditorStore.updateEditor, hi, h, hv]
      exact ⟨_, by rw [hupd]; exact lookupEd_setEntry_self _ _ _, rfl⟩

/-- C1 witness: the round-trip clause at a concrete registered store. -/
theorem updateEditor_spec_witness :
    ∃ ed2,
      lookupEd (sampleStore.updateEditor (some "a")
        "hello")._monacoEditorInstances "a" = some ed2 ∧
      ed2.value = "hello" :=
  updateEditor_spec.2.2.2.2.2 sampleStore "a" sampleEditor (by decide)
    (by decide)

/-- C2: `get` fails with the invalid-argument error exactly on a null or
empty id; for every other id it never fails: it returns the stored handle
when the key is present and an absent result (`none`) otherwise. -/
theorem get_spec :
    (∀ s : MonacoEditorStore, s.get none =
      .error "the id argument may not be null, empty, undefined, or blank") ∧
    (∀ s : MonacoEditorStore, s.get (some "") =
      .error "the id argument may not be null, empty, undefined, or blank") ∧
    (∀ (s : MonacoEditorStore) (i : String), i ≠ "" →
      s.get (some i) = .ok (lookupEd s._monacoEditorInstances i)) ∧
    (∀ (s : MonacoEditorStore) (i : String) (ed : Editor), i ≠ "" →
      lookupEd s._monacoEditorInstances i = some ed →
      s.get (some i) = .ok (some ed)) ∧
    (∀ (s : MonacoEditorStore) (i : String), i ≠ "" →
      lookupEd s._monacoEditorInstances i = none →
      s.get (some i) = .ok none) := by
  refine ⟨fun s => rfl, ?_, ?_, ?_, ?_⟩
  · intro s
    simp [MonacoEditorStore.get]
  · intro s i hi
    simp [MonacoEditorStore.get, hi]
  · intro s i ed hi h
    simp [MonacoEditorStore.get, hi, h]
  · intro s i hi h
    simp [MonacoEditorStore.get, hi, h]

/-- C2 witness: `get` on an unknown non-empty id at a concrete store. -/
theorem get_spec_witness :
    sampleStore.get (some "b") = .ok none :=
  get_spec.2.2.2.2 sampleStore "b" (by decide) (by decide)

/-- C6: `updateEditor` is idempotent in its value argument — a second call
with the same id and value is a no-op on the registry state, because after
the first call the stored text equals the value and the equality check
short-circuits. -/
theorem updateEditor_idempotent :
    ∀ (s : MonacoEditorStore) (id : Option String) (v : String),
      (s.updateEditor id v).updateEditor id v = s.updateEditor id v := by
  intro s id v
  match id with
  | none => rfl
  | some i =>
    by_cases hi : i = ""
    · simp [MonacoEditorStore.updateEditor, hi]
    · cases h : lookupEd s._monacoEditorInstances i with
      | none =>
        have h1 : s.updateEditor (some i) v = s := by
          simp [MonacoEditorStore.updateEditor, hi, h]
        rw [h1]
        exact h1
      | some ed =>
        by_cases hv : ed.value = v
        · have h1 : s.updateEditor (some i) v = s := by
            simp [MonacoEditorStore.updateEditor, hi, h, hv]
          rw [h1]
          exact h1
        · have h1 : s.updateEditor (some i) v =
              { s with
                _monacoEditorInstances := setEntry s._monacoEditorInstances i
                  { ed with value := v
                            position := { lineNumber := 0, column := 0 } } } := by
            simp [MonacoEditorStore.updateEditor, hi, h, hv]
          rw [h1]
          have h2 := lookupEd_setEntry_self s._monacoEditorInstances i
            { ed with value := v
                      position := { lineNumber := 0, column := 0 } }
          simp [MonacoEditorStore.updateEditor, hi, h2]

/-- C3: an element lacking a DOM id gets the generated id
`knockout-monaco-<counter>` from the pre-incremented seed, an element with
a pre-existing id is left alone (store untouched), and the ids produced by
any run of the generator are pairwise distinct, because the counter only
increments and is never reused. -/
theorem create_id_spec :
    (∀ (s : MonacoEditorStore) (e : DomElement), e.id ≠ "" →
      s.createAssignId e = (s, e)) ∧
    (∀ (s : MonacoEditorStore) (e : DomElement), e.id = "" →
      (s.createAssignId e).2.id =
        "knockout-monaco-" ++ toString (s._nextStoreEntryId + 1) ∧
      (s.createAssignId e).1._nextStoreEntryId = s._nextStoreEntryId + 1) ∧
    (∀ (s : MonacoEditorStore) (k : Nat), (s.generatedIds k).Nodup) := by
  refine ⟨?_, ?_, fun s k => generatedIds_nodup k s⟩
  · intro s e h
    simp [MonacoEditorStore.createAssignId, h]
  · intro s e h
    refine ⟨?_, ?_⟩ <;>
      simp [MonacoEditorStore.createAssignId, h, MonacoEditorStore.getNextId,
        genId, editorDomElementIdBase]

/-- C3 witness: a fresh element on the initial store gets
`knockout-monaco-1`. -/
theorem create_id_spec_witness :
    (MonacoEditorStore.initial.createAssignId { id := "" }).2.id =
      "knockout-monaco-" ++
        toString (MonacoEditorStore.initial._nextStoreEntryId + 1) ∧
    (MonacoEditorStore.initial.createAssignId
        { id := "" }).1._nextStoreEntryId =
      MonacoEditorStore.initial._nextStoreEntryId + 1 :=
  create_id_spec.2.1 MonacoEditorStore.initial { id := "" } rfl

/-- C4: options normalization replaces every falsy field (absent, and also
an explicit `false` or `0`) with its fixed default; on the empty record the
result is exactly the full default record (language `javascript`, theme
`vs-dark`, lineNumbers `on`, fontSize 20, readOnly false, minimap enabled);
and the widget created from options `{}` and starting text `"// start"` is
stored with text `"// start"` and those normalized options. -/
theorem parseOptions_spec :
    (∀ o : OptionsRecord, falsyStr o.language = true →
      (fillDefaults o).language = some "javascript") ∧
    (∀ o : OptionsRecord, falsyStr o.theme = true →
      (fillDefaults o).theme = some "vs-dark") ∧
    (∀ o : OptionsRecord, falsyStr o.lineNumbers = true →
      (fillDefaults o).lineNumbers = some "on") ∧
    (∀ o : OptionsRecord, falsyBool o.roundedSelection = true →
      (fillDefaults o).roundedSelection = some true) ∧
    (∀ o : OptionsRecord, falsyBool o.scrollBeyondLastLine = true →
      (fillDefaults o).scrollBeyondLastLine = some true) ∧
    (∀ o : OptionsRecord, falsyBool o.readOnly = true →
      (fillDefaults o).readOnly = some false) ∧
    (∀ o : OptionsRecord, falsyNum o.fontSize = true →
      (fillDefaults o).fontSize = some 20) ∧
    (∀ o : OptionsRecord, falsyBool o.autoIndent = true →
      (fillDefaults o).autoIndent = some true) ∧
    (∀ o : OptionsRecord, falsyBool o.emptySelectionClipboard = true →
      (fillDefaults o).emptySelectionClipboard = some true) ∧
    (∀ o : OptionsRecord, falsyBool o.folding = true →
      (fillDefaults o).folding = some true) ∧
    (∀ o : OptionsRecord, falsyBool o.glyphMargin = true →
      (fillDefaults o).glyphMargin = some true) ∧
    (∀ o : OptionsRecord, falsyBool o.mouseWheelZoom = true →
      (fillDefaults o).mouseWheelZoom = some true) ∧
    (∀ o : OptionsRecord, falsyBool o.parameterHints = true →
      (fillDefaults o).parameterHints = some true) ∧
    (∀ o : OptionsRecord, falsyBool o.renderIndentGuides = true →
      (fillDefaults o).renderIndentGuides = some true) ∧
    (∀ o : OptionsRecord, falsyObj o.minimap = true →
      (fillDefaults o).minimap = some { enabled := true,
                                        showSlider := "mouseover" }) ∧
    fillDefaults {} =
      { language := some "javascript"
        theme := some "vs-dark"
        lineNumbers := some "on"
        roundedSelection := some true
        scrollBeyondLastLine := some true
        readOnly := some false
        fontSize := some 20
        autoIndent := some true
        emptySelectionClipboard := some true
        folding := some true
        glyphMargin := some true
        mouseWheelZoom := some true
        parameterHints := some true
        renderIndentGuides := some true
        minimap := some { enabled := true, showSlider := "mouseover" } } ∧
    (fillDefaults { roundedSelection := some false
                    readOnly := some false
                    fontSize := some 0 }).roundedSelection = some true ∧
    (fillDefaults { fontSize := some 0 }).fontSize = some 20 ∧
    (∀ (s : MonacoEditorStore) (hnd : Nat),
      lookupEd (s.createRequireCallback "a" (some {}) "// start"
          hnd)._monacoEditorInstances "a" =
        some { handle := hnd
               value := "// start"
               position := { lineNumber := 1, column := 1 }
               options := fillDefaults {} }) := by
  refine ⟨?_, ?_, ?_, ?_, ?_, ?_, ?_, ?_, ?_, ?_, ?_, ?_, ?_, ?_, ?_,
    by decide, by decide, by decide, ?_⟩
  case _ => intro o h; simp [fillDefaults, h]
  case _ => intro o h; simp [fillDefaults, h]
  case _ => intro o h; simp [fillDefaults, h]
  case _ => intro o h; simp [fillDefaults, h]
  case _ => intro o h; simp [fillDefaults, h]
  case _ => intro o h; simp [fillDefaults, h]
  case _ => intro o h; simp [fillDefaults, h]
  case _ => intro o h; simp [fillDefaults, h]
  case _ => intro o h; simp [fillDefaults, h]
  case _ => intro o h; simp [fillDefaults, h]
  case _ => intro o h; simp [fillDefaults, h]
  case _ => intro o h; simp [fillDefaults, h]
  case _ => intro o h; simp [fillDefaults, h]
  case _ => intro o h; simp [fillDefaults, h]
  case _ => intro o h; simp [fillDefaults, h]
  case _ =>
    intro s hnd
    exact lookupEd_setEntry_self _ _ _

/-- C4 witness: the language clause at the empty record. -/
theorem parseOptions_spec_witness :
    (fillDefaults {}).language = some "javascript" :=
  parseOptions_spec.1 {} rfl

/-- C5: the adapter's `init` throws the explicit missing-configuration
error when the sibling `meOptions` binding is absent (so no registry call
is made), and when the binding is present it never fails and delegates to
`Registry.create` with exactly the element, the option literal
(`get('meOptions') || {}`), and the value accessor. -/
theorem init_spec :
    (∀ (α : Type) (e : DomElement) (acc : α)
      (ab : List (String × BindingVal)),
      lookupBinding ab "meOptions" = none →
      MonacoBindingHandlerHelper.init e acc ab =
        .error "a \"meOptions\" property cannot be found on the monaco-editor DOM nockout binding") ∧
    (∀ (α : Type) (e : DomElement) (acc : α)
      (ab : List (String × BindingVal)) (o : OptionsRecord),
      lookupBinding ab "meOptions" = some (.obj o) →
      MonacoBindingHandlerHelper.init e acc ab = .ok (e, o, acc)) ∧
    (∀ (α : Type) (e : DomElement) (acc : α)
      (ab : List (String × BindingVal)),
      lookupBinding ab "meOptions" = some .nullish →
      MonacoBindingHandlerHelper.init e acc ab = .ok (e, {}, acc)) ∧
    (∀ (α : Type) (e : DomElement) (acc : α)
      (ab : List (String × BindingVal)),
      (lookupBinding ab "meOptions").isSome = true →
      ∃ r, MonacoBindingHandlerHelper.init e acc ab = .ok r) := by
  refine ⟨?_, ?_, ?_, ?_⟩ <;> intro α e acc ab
  · intro h
    simp [MonacoBindingHandlerHelper.init, h]
  · intro o h
    simp [MonacoBindingHandlerHelper.init, h]
  · intro h
    simp [MonacoBindingHandlerHelper.init, h]
  · intro h
    cases hb : lookupBinding ab "meOptions" with
    | none => rw [hb] at h; exact absurd h (by simp)
    | some v =>
      cases v with
      | obj o =>
        exact ⟨(e, o, acc), by simp [MonacoBindingHandlerHelper.init, hb]⟩
      | nullish =>
        exact ⟨(e, {}, acc), by simp [MonacoBindingHandlerHelper.init, hb]⟩

/-- C5 witness: `init` with no bindings at all fails with the explicit
error. -/
theorem init_spec_witness :
    MonacoBindingHandlerHelper.init { id := "a" } (0 : Nat) [] =
      .error "a \"meOptions\" property cannot be found on the monaco-editor DOM nockout binding" :=
  init_spec.1 Nat { id := "a" } 0 [] rfl

theorem hasEditors_iff_length (s : MonacoEditorStore) :
    s.hasEditors = true ↔ s._monacoEditorInstances.length ≠ 0 := by
  rw [hasEditors_eq]
  cases s._monacoEditorInstances <;> simp

/-- C7: `hasEditors` returns true exactly when the instance map is
non-empty (equivalently, the entry count is non-zero); it is true after a
create completes, and false again once the only entry has been disposed. -/
theorem hasEditors_spec :
    (∀ s : MonacoEditorStore,
      s.hasEditors = true ↔ s._monacoEditorInstances.length ≠ 0) ∧
    (∀ (s : MonacoEditorStore) (elemId : String) (opts : Option OptionsRecord)
      (v : String) (hnd : Nat),
      (s.createRequireCallback elemId opts v hnd).hasEditors = true) ∧
    (∀ (s s2 : MonacoEditorStore) (i : String) (ed : Editor),
      s._monacoEditorInstances = [(i, ed)] →
      s.domNodeDisposeCallback i = some s2 →
      s2.hasEditors = false) := by
  refine ⟨hasEditors_iff_length, ?_, ?_⟩
  · intro s elemId opts v hnd
    have hne : (s.createRequireCallback elemId opts v
        hnd)._monacoEditorInstances ≠ [] := setEntry_ne_nil _ _ _
    rw [hasEditors_eq]
    cases hmap : (s.createRequireCallback elemId opts v
        hnd)._monacoEditorInstances with
    | nil => exact absurd hmap hne
    | cons p rest => rfl
  · intro s s2 i ed hmap hdisp
    have hlook : lookupEd s._monacoEditorInstances i = some ed := by
      rw [hmap]
      simp [lookupEd]
    have herase : eraseEntry s._monacoEditorInstances i = [] := by
      rw [hmap]
      simp [eraseEntry]
    unfold MonacoEditorStore.domNodeDisposeCallback at hdisp
    rw [hlook] at hdisp
    have hs2 := (Option.some.inj hdisp).symm
    rw [hasEditors_eq, hs2]
    simp [herase]

/-- C7 witness: disposing the only entry of the concrete store turns
`hasEditors` false. -/
theorem hasEditors_spec_witness :
    MonacoEditorStore.hasEditors
      { _monacoEditorInstances := []
        _nextStoreEntryId := 1
        disposeCalls := [1] } = false :=
  hasEditors_spec.2.2 sampleStore
    { _monacoEditorInstances := []
      _nextStoreEntryId := 1
      disposeCalls := [1] } "a" sampleEditor (by decide) (by decide)

/-- C8: disposing a registered editor (the callback run on DOM element
removal) logs a `dispose()` on exactly that widget handle and removes
exactly that map entry: a later `get` of the id yields an absent result,
`hasEditors` again tracks the (reduced) entry count, and every other
entry, and the id seed, are unchanged. -/
theorem disposeEditor_spec :
    ∀ (s : MonacoEditorStore) (i : String) (ed : Editor),
      (s._monacoEditorInstances.map Prod.fst).Nodup →
      lookupEd s._monacoEditorInstances i = some ed →
      ∃ s2, s.domNodeDisposeCallback i = some s2 ∧
        s2.disposeCalls = s.disposeCalls ++ [ed.handle] ∧
        lookupEd s2._monacoEditorInstances i = none ∧
        (i ≠ "" → s2.get (some i) = .ok none) ∧
        (∀ j, j ≠ i → lookupEd s2._monacoEditorInstances j =
          lookupEd s._monacoEditorInstances j) ∧
        (s2.hasEditors = true ↔ s2._monacoEditorInstances.length ≠ 0) ∧
        s2._nextStoreEntryId = s._nextStoreEntryId := by
  intro s i ed hnd h
  refine ⟨{ s with
            _monacoEditorInstances := eraseEntry s._monacoEditorInstances i
            disposeCalls := s.disposeCalls ++ [ed.handle] },
    ?_, rfl, ?_, ?_, ?_, hasEditors_iff_length _, rfl⟩
  · unfold MonacoEditorStore.domNodeDisposeCallback
    rw [h]
  · exact lookupEd_eraseEntry_self _ _ hnd
  · intro hi
    simp [MonacoEditorStore.get, hi, lookupEd_eraseEntry_self _ _ hnd]
  · intro j hj
    exact lookupEd_eraseEntry_ne _ _ _ hj

/-- C8 witness: disposing id `"a"` in the concrete store. -/
theorem disposeEditor_spec_witness :
    ∃ s2, sampleStore.domNodeDisposeCallback "a" = some s2 ∧
      s2.disposeCalls = sampleStore.disposeCalls ++ [sampleEditor.handle] ∧
      lookupEd s2._monacoEditorInstances "a" = none ∧
      ("a" ≠ "" → s2.get (some "a") = .ok none) ∧
      (∀ j, j ≠ "a" → lookupEd s2._monacoEditorInstances j =
        lookupEd sampleStore._monacoEditorInstances j) ∧
      (s2.hasEditors = true ↔ s2._monacoEditorInstances.length ≠ 0) ∧
      s2._nextStoreEntryId = sampleStore._nextStoreEntryId :=
  disposeEditor_spec sampleStore "a" sampleEditor (by decide) (by decide)

/-- C9: `parseOptions` mutates the caller-supplied options object in place
and returns that very reference: after the call, the filled-in defaults
are observable through the caller's original reference, and no other
record on the heap is touched. -/
theorem parseOptionsRef_spec :
    ∀ (h : OptionsHeap) (r : Nat), r < h.recs.length →
      (parseOptionsRef h (some r)).2 = r ∧
      (parseOptionsRef h (some r)).1.read r = fillDefaults (h.read r) ∧
      (∀ q, q ≠ r → (parseOptionsRef h (some r)).1.read q = h.read q) := by
  intro h r hr
  refine ⟨rfl, ?_, ?_⟩
  · show (h.write r (fillDefaults (h.read r))).read r = fillDefaults (h.read r)
    unfold OptionsHeap.read OptionsHeap.write
    simp [List.getD_eq_getElem?_getD, List.getElem?_set_self hr]
  · intro q hq
    show (h.write r (fillDefaults (h.read r))).read q = h.read q
    unfold OptionsHeap.read OptionsHeap.write
    simp [List.getD_eq_getElem?_getD, List.getElem?_set_ne (Ne.symm hq)]

/-- C9 witness: a one-record heap; the returned reference is the input
reference and the defaults are visible through it. -/
theorem parseOptionsRef_spec_witness :
    (parseOptionsRef { recs := [{}] } (some 0)).2 = 0 ∧
    (parseOptionsRef { recs := [{}] } (some 0)).1.read 0 =
      fillDefaults (OptionsHeap.read { recs := [{}] } 0) ∧
    (∀ q, q ≠ 0 → (parseOptionsRef { recs := [{}] } (some 0)).1.read q =
      OptionsHeap.read { recs := [{}] } q) :=
  parseOptionsRef_spec { recs := [{}] } 0 (by decide)

/-- C10: completing `create` on an element whose id is already a key of
the registry silently overwrites that entry with the new handle — the old
handle is not disposed (the dispose log is unchanged), every other entry
is untouched, and the entry count does not grow. -/
theorem create_overwrite_spec :
    ∀ (s : MonacoEditorStore) (i : String) (edOld : Editor)
      (opts : Option OptionsRecord) (v : String) (hnd : Nat),
      lookupEd s._monacoEditorInstances i = some edOld →
      lookupEd (s.createRequireCallback i opts v
          hnd)._monacoEditorInstances i =
        some { handle := hnd
               value := v
               position := { lineNumber := 1, column := 1 }
               options := parseOptions opts } ∧
      (s.createRequireCallback i opts v hnd).disposeCalls = s.disposeCalls ∧
      (∀ j, j ≠ i →
        lookupEd (s.createRequireCallback i opts v
            hnd)._monacoEditorInstances j =
          lookupEd s._monacoEditorInstances j) ∧
      (s.createRequireCallback i opts v hnd)._monacoEditorInstances.length =
        s._monacoEditorInstances.length := by
  intro s i edOld opts v hnd h
  exact ⟨lookupEd_setEntry_self _ _ _, rfl,
    fun j hj => lookupEd_setEntry_ne _ _ _ _ hj,
    setEntry_length_of_mem _ _ edOld _ h⟩

/-- C10 witness: re-creating under the already-registered id `"a"`. -/
theorem create_overwrite_spec_witness :
    lookupEd (sampleStore.createRequireCallback "a" none "y"
        2)._monacoEditorInstances "a" =
      some { handle := 2
             value := "y"
             position := { lineNumber := 1, column := 1 }
             options := parseOptions none } ∧
    (sampleStore.createRequireCallback "a" none "y" 2).disposeCalls =
      sampleStore.disposeCalls ∧
    (∀ j, j ≠ "a" →
      lookupEd (sampleStore.createRequireCallback "a" none "y"
          2)._monacoEditorInstances j =
        lookupEd sampleStore._monacoEditorInstances j) ∧
    (sampleStore.createRequireCallback "a" none "y"
        2)._monacoEditorInstances.length =
      sampleStore._monacoEditorInstances.length :=
  create_overwrite_spec sampleStore "a" sampleEditor none "y" 2 (by decide)
